import Mathlib

/-!
Verification of the lanzaboote thin boot stub (`rust/uefi/stub/src/thin.rs`).

Bytes are modelled as `Nat` (values < 256 where produced by the code), byte
buffers as `List Nat`, UCS-2 strings (`CString16`) as `List Nat` of 16-bit
code units, and the loaded PE image as an association list from section
names to section byte contents.  Firmware interactions (filesystem,
PXE/TFTP, logging) are modelled by an explicit environment record and an
event trace.
-/

namespace Lanzaboote

/-! ## SHA-256 (the `sha2` crate's `Sha256::digest`, RFC 6234) -/

/-- Rotate a 32-bit word right by `n` bits. -/
def rotr32 (n x : Nat) : Nat :=
  ((x >>> n) ||| (x <<< (32 - n))) % 2 ^ 32

/-- SHA-256 big sigma 0. -/
def bsig0 (x : Nat) : Nat := rotr32 2 x ^^^ rotr32 13 x ^^^ rotr32 22 x

/-- SHA-256 big sigma 1. -/
def bsig1 (x : Nat) : Nat := rotr32 6 x ^^^ rotr32 11 x ^^^ rotr32 25 x

/-- SHA-256 small sigma 0. -/
def ssig0 (x : Nat) : Nat := rotr32 7 x ^^^ rotr32 18 x ^^^ (x >>> 3)

/-- SHA-256 small sigma 1. -/
def ssig1 (x : Nat) : Nat := rotr32 17 x ^^^ rotr32 19 x ^^^ (x >>> 10)

/-- SHA-256 choice function. -/
def chFn (x y z : Nat) : Nat := (x &&& y) ^^^ ((x ^^^ 0xffffffff) &&& z)

/-- SHA-256 majority function. -/
def majFn (x y z : Nat) : Nat := (x &&& y) ^^^ (x &&& z) ^^^ (y &&& z)

/-- The 64 SHA-256 round constants, written in decimal. -/
def sha256K : List Nat :=
  [1116352408, 1899447441, 3049323471, 3921009573, 961987163,
   1508970993, 2453635748, 2870763221, 3624381080, 310598401,
   607225278, 1426881987, 1925078388, 2162078206, 2614888103,
   3248222580, 3835390401, 4022224774, 264347078, 604807628,
   770255983, 1249150122, 1555081692, 1996064986, 2554220882,
   2821834349, 2952996808, 3210313671, 3336571891, 3584528711,
   113926993, 338241895, 666307205, 773529912, 1294757372,
   1396182291, 1695183700, 1986661051, 2177026350, 2456956037,
   2730485921, 2820302411, 3259730800, 3345764771, 3516065817,
   3600352804, 4094571909, 275423344, 430227734, 506948616,
   659060556, 883997877, 958139571, 1322822218, 1537002063,
   1747873779, 1955562222, 2024104815, 2227730452, 2361852424,
   2428436474, 2756734187, 3204031479, 3329325298]

/-- The SHA-256 initial hash state, written in decimal. -/
def sha256H0 : List Nat :=
  [1779033703, 3144134277, 1013904242, 2773480762,
   1359893119, 2600822924, 528734635, 1541459225]

/-- The `n` big-endian bytes of the value `v`. -/
def beBytes (n v : Nat) : List Nat :=
  (List.range n).map fun i => (v >>> (8 * (n - 1 - i))) % 256

/-- SHA-256 message padding: append `0x80`, zero bytes up to 56 mod 64, and
the 8-byte big-endian bit length. -/
def sha256Pad (msg : List Nat) : List Nat :=
  let z := (119 - msg.length % 64) % 64
  msg ++ [0x80] ++ List.replicate z 0 ++ beBytes 8 (8 * msg.length)

/-- Group a byte list into big-endian 32-bit words (trailing bytes that do
not fill a word are dropped; padding guarantees a multiple of 4). -/
def toWords : List Nat → List Nat
  | b0 :: b1 :: b2 :: b3 :: rest =>
      ((((b0 % 256) * 256 + b1 % 256) * 256 + b2 % 256) * 256 + b3 % 256) :: toWords rest
  | _ => []

/-- Append the next message-schedule word to the current schedule. -/
def nextW (ws : List Nat) : Nat :=
  let k := ws.length
  (ssig1 (ws.getD (k - 2) 0) + ws.getD (k - 7) 0 + ssig0 (ws.getD (k - 15) 0) +
    ws.getD (k - 16) 0) % 2 ^ 32

/-- Extend a message schedule by `n` further words. -/
def extendW (ws : List Nat) : Nat → List Nat
  | 0 => ws
  | n + 1 => extendW (ws ++ [nextW ws]) n

/-- The eight SHA-256 working registers. -/
structure Regs where
  a : Nat
  b : Nat
  c : Nat
  d : Nat
  e : Nat
  f : Nat
  g : Nat
  h : Nat
deriving Repr, DecidableEq

/-- One SHA-256 round, where `kw` is the sum of the round constant and the
schedule word. -/
def roundStep (r : Regs) (kw : Nat) : Regs :=
  let t1 := (r.h + bsig1 r.e + chFn r.e r.f r.g + kw) % 2 ^ 32
  let t2 := (bsig0 r.a + majFn r.a r.b r.c) % 2 ^ 32
  ⟨(t1 + t2) % 2 ^ 32, r.a, r.b, r.c, (r.d + t1) % 2 ^ 32, r.e, r.f, r.g⟩

/-- Compress one 64-byte block into the running 8-word hash state. -/
def compress (hs block : List Nat) : List Nat :=
  let ws := extendW (toWords block) 48
  let kws := List.zipWith (fun k w => k + w) sha256K ws
  let r := kws.foldl roundStep
    ⟨hs.getD 0 0, hs.getD 1 0, hs.getD 2 0, hs.getD 3 0,
     hs.getD 4 0, hs.getD 5 0, hs.getD 6 0, hs.getD 7 0⟩
  [(hs.getD 0 0 + r.a) % 2 ^ 32, (hs.getD 1 0 + r.b) % 2 ^ 32,
   (hs.getD 2 0 + r.c) % 2 ^ 32, (hs.getD 3 0 + r.d) % 2 ^ 32,
   (hs.getD 4 0 + r.e) % 2 ^ 32, (hs.getD 5 0 + r.f) % 2 ^ 32,
   (hs.getD 6 0 + r.g) % 2 ^ 32, (hs.getD 7 0 + r.h) % 2 ^ 32]

/-- Split a byte list into 64-byte chunks, with a fuel argument for
structural recursion (one unit of fuel per chunk suffices since every
step consumes at least one byte). -/
def chunksAux : Nat → List Nat → List (List Nat)
  | _, [] => []
  | 0, _ => []
  | fuel + 1, l => l.take 64 :: chunksAux fuel (l.drop 64)

/-- Split a byte list into 64-byte chunks. -/
def chunks64 (l : List Nat) : List (List Nat) :=
  chunksAux l.length l

/-- SHA-256 of a byte buffer, as a 32-byte digest. -/
def sha256 (msg : List Nat) : List Nat :=
  let hs := (chunks64 (sha256Pad msg)).foldl compress sha256H0
  hs.foldr (fun w acc => beBytes 4 w ++ acc) []

example : sha256 [] =
    [0xe3, 0xb0, 0xc4, 0x42, 0x98, 0xfc, 0x1c, 0x14, 0x9a, 0xfb, 0xf4, 0xc8,
     0x99, 0x6f, 0xb9, 0x24, 0x27, 0xae, 0x41, 0xe4, 0x64, 0x9b, 0x93, 0x4c,
     0xa4, 0x95, 0x99, 0x1b, 0x78, 0x52, 0xb8, 0x55] := by decide

example : sha256 [0x61, 0x62, 0x63] =
    [0xba, 0x78, 0x16, 0xbf, 0x8f, 0x01, 0xcf, 0xea, 0x41, 0x41, 0x40, 0xde,
     0x5d, 0xae, 0x22, 0x23, 0xb0, 0x03, 0x61, 0xa3, 0x96, 0x17, 0x7a, 0x9c,
     0xb4, 0x10, 0xff, 0x61, 0xf2, 0x00, 0x15, 0xad] := by decide

/-! ## The embedded-configuration reader (`thin.rs` lines 39–60) -/

/-- UEFI status codes used by the stub. -/
inductive Status where
  | SUCCESS
  | INVALID_PARAMETER
  | SECURITY_VIOLATION
deriving Repr, DecidableEq

/-- The loaded PE image, as an association list from section names to the
raw bytes of the section. -/
abbrev Image : Type := List (String × List Nat)

/-- Modelled from the spec: `pe_section` (from the `linux_bootloader`
crate, not part of the sources under verification) locates a named binary
data section in the loaded image and returns its bytes, or nothing when no
section of that name exists. -/
def pe_section (pe_data : Image) (name : String) : Option (List Nat) :=
  (pe_data.find? fun p => p.1 == name).map fun p => p.2

/-- Modelled from the spec: decode section bytes as a length-implicit,
null-aware wide-character (UCS-2, little-endian) string; fails when no null
terminator is reached or a trailing lone byte remains. -/
def ucs2Decode : List Nat → Option (List Nat)
  | [] => none
  | [_] => none
  | lo :: hi :: rest =>
      let c := lo % 256 + 256 * (hi % 256)
      if c = 0 then some []
      else (ucs2Decode rest).map fun s => c :: s

/-- Modelled from the spec: `extract_string` (from the stub's `common`
module, not part of the sources under verification) locates a named PE
section and decodes it as a wide string; a missing section or a decode
failure is an `INVALID_PARAMETER` error. -/
def extract_string (pe_data : Image) (sec : String) : Except Status (List Nat) :=
  match pe_section pe_data sec with
  | none => .error .INVALID_PARAMETER
  | some bytes =>
      match ucs2Decode bytes with
      | none => .error .INVALID_PARAMETER
      | some s => .ok s

/-- Extract a SHA256 hash from a PE section (`extract_hash`): the named
section must exist and hold exactly 32 bytes; otherwise
`INVALID_PARAMETER`. -/
def extract_hash (pe_data : Image) (sec : String) : Except Status (List Nat) :=
  match pe_section pe_data sec with
  | none => .error .INVALID_PARAMETER
  | some bytes => if bytes.length = 32 then .ok bytes else .error .INVALID_PARAMETER

/-- The configuration that is embedded at build time (`EmbeddedConfiguration`).
Wide strings (`CString16`) are lists of 16-bit code units. -/
structure EmbeddedConfiguration where
  kernel_filename : List Nat
  kernel_hash : List Nat
  initrd_filename : List Nat
  initrd_hash : List Nat
  cmdline : List Nat
deriving Repr, DecidableEq

/-- Constructor `EmbeddedConfiguration::new`: extract the five sections in source
order, failing on the first error. -/
def EmbeddedConfiguration.new (file_data : Image) : Except Status EmbeddedConfiguration := do
  let kernel_filename ← extract_string file_data ".kernelp"
  let kernel_hash ← extract_hash file_data ".kernelh"
  let initrd_filename ← extract_string file_data ".initrdp"
  let initrd_hash ← extract_hash file_data ".initrdh"
  let cmdline ← extract_string file_data ".cmdline"
  return ⟨kernel_filename, kernel_hash, initrd_filename, initrd_hash, cmdline⟩

/-! ## Events and the firmware environment -/

/-- Observable actions of one boot attempt, in the order the stub performs
them.  Diagnostics are the `log` crate's `error!` and `warn!` macros. -/
inductive Event where
  | configExtract
  | fsOpen
  | fsProbe
  | fsRead (name : List Nat)
  | pxeSizeQuery (ip : Nat) (name : String)
  | pxeReadFile (ip : Nat) (name : String)
  | cmdlineBuild
  | hashCheck (name : String)
  | logError (msg : String)
  | logWarn (msg : String)
  | handOff
deriving Repr, DecidableEq

/-- Outcome of one boot attempt.  `booted` is the tail call into
`boot_linux_unchecked` (external, never returns); `fatal` is a Rust
panic (`expect`, `unwrap` or `assert!`); `failed` is an `Err` returned
from `boot_linux`. -/
inductive BootResult where
  | booted (kernel : List Nat) (cmdline : List Nat) (initrd : List Nat)
  | fatal (msg : String)
  | failed (s : Status)
deriving Repr, DecidableEq

/-- The firmware environment of one boot attempt: every fact the stub can
observe through UEFI boot services, fixed for the duration of the attempt. -/
structure BootEnv where
  /-- The loaded stub binary's PE sections (`booted_image_file`). -/
  image : Image
  /-- Result of `get_secure_boot_status` (a query failure reads as `false`). -/
  secure_boot : Bool
  /-- Whether `get_image_file_system(handle)` succeeds. -/
  image_fs_ok : Bool
  /-- Result of `test_protocol::<SimpleFileSystem>`: the one-shot capability probe. -/
  simple_fs : Bool
  /-- Firmware `FileSystem::read` by filename; `none` is a read failure. -/
  fs_read : List Nat → Option (List Nat)
  /-- Whether opening the `LoadedImage` protocol succeeds. -/
  loaded_image_ok : Bool
  /-- Whether opening the PXE `BaseCode` protocol succeeds. -/
  base_code_ok : Bool
  /-- Value of `base_code.mode().dhcp_ack_received`. -/
  dhcp_ack_received : Bool
  /-- The boot server IPv4 address in the DHCP ack's `bootp_si_addr` field. -/
  bootp_si_addr : Nat
  /-- Result of `tftp_get_file_size(ip, name)`; `none` is a query failure. -/
  tftp_file_size : Nat → String → Option Nat
  /-- Result of `tftp_read_file(ip, name, buffer)`: the bytes the server transfers,
  or `none` on a transfer failure. -/
  tftp_read : Nat → String → Option (List Nat)
  /-- Modelled from the spec: `get_cmdline` (from the stub's `common`
  module, not part of the sources under verification) combines the embedded
  command line with firmware-policy-gated additional text. -/
  get_cmdline : List Nat → Bool → List Nat

/-- Writing TFTP `content` into an allocated buffer `buf`: bytes beyond the
content keep their allocated value, content beyond the buffer is dropped. -/
def fillBuffer (buf content : List Nat) : List Nat :=
  content.take buf.length ++ buf.drop content.length

/-! ## `check_hash` (`thin.rs` lines 67–78) -/

/-- Verify some data against its expected hash (`check_hash`).  Returns the
function's `uefi::Result<()>` together with the diagnostics it logs.  On a
mismatch with Secure Boot active an error is logged and
`SECURITY_VIOLATION` is returned; with Secure Boot inactive only a warning
is logged and the result is `Ok`. -/
def check_hash (data expected_hash : List Nat) (name : String) (secure_boot : Bool) :
    Except Status Unit × List Event :=
  let hash_correct := sha256 data = expected_hash
  if ¬ hash_correct then
    if secure_boot then
      (.error .SECURITY_VIOLATION, [.logError (name ++ " hash does not match!")])
    else
      (.ok (), [.logWarn (name ++ " hash does not match! Continuing anyway.")])
  else
    (.ok (), [])

/-! ## `boot_linux` (`thin.rs` lines 80–181) -/

/-- The acquisition block of `boot_linux` (`thin.rs` lines 101–159):
`get_image_file_system` is called unconditionally (its failure is a fatal
`expect`), then `test_protocol::<SimpleFileSystem>` selects between the
local filesystem read of the two embedded filenames and the PXE/TFTP
transfer of the two fixed canonical filenames.  Returns the two artifact
buffers or a fatal panic message, together with the I/O events issued. -/
def acquire (env : BootEnv) (kernel_filename initrd_filename : List Nat) :
    Except String (List Nat × List Nat) × List Event :=
  if env.image_fs_ok = false then
    (.error "Failed to get file system handle", [.fsOpen])
  else if env.simple_fs then
    match env.fs_read kernel_filename with
    | none =>
        (.error "Failed to read kernel file into memory",
         [.fsOpen, .fsProbe, .fsOpen, .fsRead kernel_filename])
    | some kernel_data =>
        match env.fs_read initrd_filename with
        | none =>
            (.error "Failed to read initrd file into memory",
             [.fsOpen, .fsProbe, .fsOpen, .fsRead kernel_filename, .fsRead initrd_filename])
        | some initrd_data =>
            (.ok (kernel_data, initrd_data),
             [.fsOpen, .fsProbe, .fsOpen, .fsRead kernel_filename, .fsRead initrd_filename])
  else
    if env.loaded_image_ok = false then
      (.error "Failed to open the loaded image protocol on the currently loaded image",
       [.fsOpen, .fsProbe])
    else if env.base_code_ok = false then
      (.error "called Result::unwrap on an Err value opening the PXE base code protocol",
       [.fsOpen, .fsProbe])
    else if env.dhcp_ack_received = false then
      (.error "assertion failed: base_code.mode().dhcp_ack_received", [.fsOpen, .fsProbe])
    else
      let server_ip := env.bootp_si_addr
      match env.tftp_file_size server_ip "./bzImage" with
      | none =>
          (.error "failed to query file size",
           [.fsOpen, .fsProbe, .pxeSizeQuery server_ip "./bzImage"])
      | some kfile_size =>
          match env.tftp_file_size server_ip "./initrd" with
          | none =>
              (.error "failed to query file size",
               [.fsOpen, .fsProbe, .pxeSizeQuery server_ip "./bzImage",
                .pxeSizeQuery server_ip "./initrd"])
          | some ifile_size =>
              if kfile_size = 0 then
                (.error "assertion failed: kfile_size > 0",
                 [.fsOpen, .fsProbe, .pxeSizeQuery server_ip "./bzImage",
                  .pxeSizeQuery server_ip "./initrd"])
              else if ifile_size = 0 then
                (.error "assertion failed: ifile_size > 0",
                 [.fsOpen, .fsProbe, .pxeSizeQuery server_ip "./bzImage",
                  .pxeSizeQuery server_ip "./initrd"])
              else
                match env.tftp_read server_ip "./bzImage" with
                | none =>
                    (.error "failed to read file",
                     [.fsOpen, .fsProbe, .pxeSizeQuery server_ip "./bzImage",
                      .pxeSizeQuery server_ip "./initrd", .pxeReadFile server_ip "./bzImage"])
                | some kcontent =>
                    match env.tftp_read server_ip "./initrd" with
                    | none =>
                        (.error "failed to read file",
                         [.fsOpen, .fsProbe, .pxeSizeQuery server_ip "./bzImage",
                          .pxeSizeQuery server_ip "./initrd", .pxeReadFile server_ip "./bzImage",
                          .pxeReadFile server_ip "./initrd"])
                    | some icontent =>
                        let kernel_data := fillBuffer (List.replicate kfile_size 0) kcontent
                        let initrd_data := fillBuffer (List.replicate ifile_size 0) icontent
                        let tr := [Event.fsOpen, .fsProbe, .pxeSizeQuery server_ip "./bzImage",
                          .pxeSizeQuery server_ip "./initrd", .pxeReadFile server_ip "./bzImage",
                          .pxeReadFile server_ip "./initrd"]
                        if kcontent.length = 0 then
                          (.error "assertion failed: klen > 0", tr)
                        else if icontent.length = 0 then
                          (.error "assertion failed: ilen > 0", tr)
                        else
                          (.ok (kernel_data, initrd_data), tr)

/-- The tail of `boot_linux` after acquisition (`thin.rs` lines 161–180):
`get_cmdline` is called first, then the kernel hash and the initrd hash are
checked (each `?` propagating a `SECURITY_VIOLATION`), and finally control
transfers through `boot_linux_unchecked`. -/
def afterAcquire (env : BootEnv) (config : EmbeddedConfiguration)
    (kernel_data initrd_data : List Nat) : BootResult × List Event :=
  let secure_boot_enabled := env.secure_boot
  let cmdline := env.get_cmdline config.cmdline secure_boot_enabled
  let kcheck := check_hash kernel_data config.kernel_hash "Kernel" secure_boot_enabled
  match kcheck.1 with
  | .error s => (.failed s, [Event.cmdlineBuild, Event.hashCheck "Kernel"] ++ kcheck.2)
  | .ok _ =>
      let icheck := check_hash initrd_data config.initrd_hash "Initrd" secure_boot_enabled
      match icheck.1 with
      | .error s =>
          (.failed s,
           [Event.cmdlineBuild, Event.hashCheck "Kernel"] ++ kcheck.2 ++
             ([Event.hashCheck "Initrd"] ++ icheck.2))
      | .ok _ =>
          (.booted kernel_data cmdline initrd_data,
           [Event.cmdlineBuild, Event.hashCheck "Kernel"] ++ kcheck.2 ++
             ([Event.hashCheck "Initrd"] ++ icheck.2 ++ [Event.handOff]))

/-- Entry point `boot_linux`: extract the embedded configuration from the stub's own
loaded image (a fatal `expect` on failure), query Secure Boot state,
acquire the two artifacts, then verify and hand off. -/
def boot_linux (env : BootEnv) : BootResult × List Event :=
  match EmbeddedConfiguration.new env.image with
  | .error _ =>
      (.fatal "Failed to extract configuration from binary. Did you run lzbt?",
       [.configExtract])
  | .ok config =>
      match acquire env config.kernel_filename config.initrd_filename with
      | (.error msg, tr) => (.fatal msg, .configExtract :: tr)
      | (.ok (kernel_data, initrd_data), tr) =>
          let tail := afterAcquire env config kernel_data initrd_data
          (tail.1, (.configExtract :: tr) ++ tail.2)

/-! ## Trace observations -/

/-- Network requests: TFTP size queries and file transfers. -/
def isNetEvent : Event → Bool
  | .pxeSizeQuery _ _ => true
  | .pxeReadFile _ _ => true
  | _ => false

/-- Local filesystem file reads. -/
def isFsReadEvent : Event → Bool
  | .fsRead _ => true
  | _ => false

/-- TFTP file transfers only. -/
def isNetReadEvent : Event → Bool
  | .pxeReadFile _ _ => true
  | _ => false

/-- Acquisition I/O: filesystem reads and network requests. -/
def isAcqEvent (e : Event) : Bool := isFsReadEvent e || isNetEvent e

/-- The network-request subtrace of a trace. -/
def netEvents (tr : List Event) : List Event := tr.filter isNetEvent

/-- The filesystem-read subtrace of a trace. -/
def fsReadEvents (tr : List Event) : List Event := tr.filter isFsReadEvent

/-- The pipeline stage an event belongs to: configuration extraction (0),
artifact acquisition (1), command-line build (2), hash verification and its
diagnostics (3), kernel hand-off (4). -/
def phase : Event → Nat
  | .configExtract => 0
  | .fsOpen => 1
  | .fsProbe => 1
  | .fsRead _ => 1
  | .pxeSizeQuery _ _ => 1
  | .pxeReadFile _ _ => 1
  | .cmdlineBuild => 2
  | .hashCheck _ => 3
  | .logError _ => 3
  | .logWarn _ => 3
  | .handOff => 4

/-! ## Concrete boot environments used as evaluation witnesses -/

/-- A well-formed image: embedded kernel filename `k` (UCS-2 `[107]`),
initrd filename `i` (`[105]`), command line `c` (`[99]`), and the hashes of
the artifact buffers `[1, 2, 3]` and `[4, 5]`. -/
def goodImage : Image :=
  [(".kernelp", [107, 0, 0, 0]), (".kernelh", sha256 [1, 2, 3]),
   (".initrdp", [105, 0, 0, 0]), (".initrdh", sha256 [4, 5]),
   (".cmdline", [99, 0, 0, 0])]

/-- A boot environment whose load device has a filesystem holding matching
artifacts. -/
def envLocal : BootEnv where
  image := goodImage
  secure_boot := true
  image_fs_ok := true
  simple_fs := true
  fs_read := fun n =>
    if n = [107] then some [1, 2, 3] else if n = [105] then some [4, 5] else none
  loaded_image_ok := true
  base_code_ok := true
  dhcp_ack_received := true
  bootp_si_addr := 0
  tftp_file_size := fun _ _ => none
  tftp_read := fun _ _ => none
  get_cmdline := fun c _ => c

/-- A boot environment with no filesystem capability and a PXE boot server
at address 7 serving matching artifacts. -/
def envNet : BootEnv where
  image := goodImage
  secure_boot := true
  image_fs_ok := true
  simple_fs := false
  fs_read := fun _ => none
  loaded_image_ok := true
  base_code_ok := true
  dhcp_ack_received := true
  bootp_si_addr := 7
  tftp_file_size := fun _ n =>
    if n = "./bzImage" then some 3 else if n = "./initrd" then some 2 else none
  tftp_read := fun _ n =>
    if n = "./bzImage" then some [1, 2, 3] else if n = "./initrd" then some [4, 5] else none
  get_cmdline := fun c _ => c

/-- Variant of `goodImage` with different embedded filenames (`j` and `h`) but the
same hashes and command line. -/
def altImage : Image :=
  [(".kernelp", [106, 0, 0, 0]), (".kernelh", sha256 [1, 2, 3]),
   (".initrdp", [104, 0, 0, 0]), (".initrdh", sha256 [4, 5]),
   (".cmdline", [99, 0, 0, 0])]

/-- Variant of `envNet` whose boot server reports size 0 for the kernel image. -/
def envNetZero : BootEnv :=
  { envNet with tftp_file_size := fun _ n => if n = "./bzImage" then some 0 else some 2 }

/-- Variant of `envNet` on whose PXE handle no DHCP acknowledgment was received. -/
def envNoDhcp : BootEnv := { envNet with dhcp_ack_received := false }

/-- A boot attempt whose load device exposes no block-filesystem
capability at all: `test_protocol::<SimpleFileSystem>` reports the
capability absent, and accordingly `get_image_file_system` on that device
fails too.  The embedded configuration is valid and the PXE side (DHCP
ack, boot server, file sizes, transfers) is fully healthy. -/
def envPxeNoFs : BootEnv := { envNet with image_fs_ok := false }

example : (boot_linux envLocal).1 = .booted [1, 2, 3] [99] [4, 5] := by decide

example : (boot_linux envLocal).2 =
    [.configExtract, .fsOpen, .fsProbe, .fsOpen, .fsRead [107], .fsRead [105],
     .cmdlineBuild, .hashCheck "Kernel", .hashCheck "Initrd", .handOff] := by decide

example : (boot_linux envNet).1 = .booted [1, 2, 3] [99] [4, 5] := by decide

example : (boot_linux envNet).2 =
    [.configExtract, .fsOpen, .fsProbe, .pxeSizeQuery 7 "./bzImage",
     .pxeSizeQuery 7 "./initrd", .pxeReadFile 7 "./bzImage", .pxeReadFile 7 "./initrd",
     .cmdlineBuild, .hashCheck "Kernel", .hashCheck "Initrd", .handOff] := by decide

/-! ## Helper lemmas -/

lemma extract_string_ok {img : Image} {s : String} {v : List Nat}
    (h : extract_string img s = .ok v) : ∃ b, pe_section img s = some b := by
  unfold extract_string at h
  cases hp : pe_section img s with
  | none => rw [hp] at h; exact absurd h (by simp)
  | some b => exact ⟨b, rfl⟩

lemma extract_hash_ok {img : Image} {s : String} {v : List Nat}
    (h : extract_hash img s = .ok v) :
    pe_section img s = some v ∧ v.length = 32 := by
  unfold extract_hash at h
  cases hp : pe_section img s with
  | none => rw [hp] at h; exact absurd h (by simp)
  | some b =>
      rw [hp] at h
      by_cases hl : b.length = 32
      · simp [hl] at h
        subst h
        exact ⟨rfl, hl⟩
      · simp [hl] at h

/-- Everything that must hold of the image when `EmbeddedConfiguration::new`
succeeds: all five sections exist and the two hash sections are exactly the
32-byte hashes recorded in the configuration. -/
lemma new_ok_sections {img : Image} {c : EmbeddedConfiguration}
    (h : EmbeddedConfiguration.new img = .ok c) :
    (∃ b, pe_section img ".kernelp" = some b) ∧
    (pe_section img ".kernelh" = some c.kernel_hash ∧ c.kernel_hash.length = 32) ∧
    (∃ b, pe_section img ".initrdp" = some b) ∧
    (pe_section img ".initrdh" = some c.initrd_hash ∧ c.initrd_hash.length = 32) ∧
    (∃ b, pe_section img ".cmdline" = some b) := by
  unfold EmbeddedConfiguration.new at h
  cases h1 : extract_string img ".kernelp" with
  | error e => rw [h1] at h; exact absurd h (by simp [Bind.bind, Except.bind])
  | ok kf =>
  rw [h1] at h
  cases h2 : extract_hash img ".kernelh" with
  | error e => rw [h2] at h; exact absurd h (by simp [Bind.bind, Except.bind])
  | ok kh =>
  rw [h2] at h
  cases h3 : extract_string img ".initrdp" with
  | error e => rw [h3] at h; exact absurd h (by simp [Bind.bind, Except.bind])
  | ok ifn =>
  rw [h3] at h
  cases h4 : extract_hash img ".initrdh" with
  | error e => rw [h4] at h; exact absurd h (by simp [Bind.bind, Except.bind])
  | ok ih =>
  rw [h4] at h
  cases h5 : extract_string img ".cmdline" with
  | error e => rw [h5] at h; exact absurd h (by simp [Bind.bind, Except.bind])
  | ok cl =>
  rw [h5] at h
  simp [Bind.bind, Except.bind, pure, Except.pure] at h
  obtain ⟨hkh, hih⟩ : kh = c.kernel_hash ∧ ih = c.initrd_hash := by
    cases c; simp_all
  subst hkh hih
  exact ⟨extract_string_ok h1, extract_hash_ok h2, extract_string_ok h3,
    extract_hash_ok h4, extract_string_ok h5⟩

lemma phase_of_net {e : Event} (h : isNetEvent e = true) : phase e = 1 := by
  cases e <;> simp_all [isNetEvent, phase]

lemma phase_of_fsRead {e : Event} (h : isFsReadEvent e = true) : phase e = 1 := by
  cases e <;> simp_all [isFsReadEvent, phase]

lemma isNetEvent_of_netRead {e : Event} (h : isNetReadEvent e = true) : isNetEvent e = true := by
  cases e <;> simp_all [isNetEvent, isNetReadEvent]

/-- Every event the acquisition block issues belongs to the acquisition
stage. -/
lemma acquire_phase (env : BootEnv) (kf ifn : List Nat) :
    ∀ e ∈ (acquire env kf ifn).2, phase e = 1 := by
  simp only [acquire]
  repeat' split
  all_goals (intro e he; fin_cases he <;> rfl)

/-- On the local path the acquisition block issues no network request. -/
lemma acquire_local_no_net (env : BootEnv) (kf ifn : List Nat) (h : env.simple_fs = true) :
    netEvents (acquire env kf ifn).2 = [] := by
  unfold acquire netEvents
  by_cases h1 : env.image_fs_ok = false
  · simp [h1, isNetEvent]
  · cases h2 : env.fs_read kf <;> cases h3 : env.fs_read ifn <;>
      simp [h1, h, h2, h3, isNetEvent]

/-- On the network path the acquisition block issues no filesystem read. -/
lemma acquire_net_no_fsRead (env : BootEnv) (kf ifn : List Nat) (h : env.simple_fs = false) :
    fsReadEvents (acquire env kf ifn).2 = [] := by
  simp only [acquire, fsReadEvents, h]
  repeat' split
  all_goals (first | (simp [isFsReadEvent]; done) | simp_all)

/-- Every network request the acquisition block issues goes to the DHCP
boot server address and names one of the two canonical filenames. -/
lemma acquire_net_events (env : BootEnv) (kf ifn : List Nat) :
    ∀ e ∈ (acquire env kf ifn).2, isNetEvent e = true →
      e = .pxeSizeQuery env.bootp_si_addr "./bzImage" ∨
      e = .pxeSizeQuery env.bootp_si_addr "./initrd" ∨
      e = .pxeReadFile env.bootp_si_addr "./bzImage" ∨
      e = .pxeReadFile env.bootp_si_addr "./initrd" := by
  simp only [acquire]
  repeat' split
  all_goals (intro e he; fin_cases he <;> simp [isNetEvent])

/-- The network branch never consults the embedded filenames: with no
filesystem capability, acquisition is the same function for any filename
arguments. -/
lemma acquire_ignores_names (env : BootEnv) (kf ifn kf' ifn' : List Nat)
    (h : env.simple_fs = false) :
    acquire env kf ifn = acquire env kf' ifn' := by
  simp [acquire, h]

/-- Acquisition never reads the loaded image's sections. -/
lemma acquire_image_irrelevant (env : BootEnv) (img : Image) (kf ifn : List Nat) :
    acquire { env with image := img } kf ifn = acquire env kf ifn := rfl

/-- If the boot server reports size zero for either canonical filename, no
TFTP transfer happens in the acquisition block. -/
lemma acquire_no_transfer_on_zero (env : BootEnv) (kf ifn : List Nat)
    (h : env.tftp_file_size env.bootp_si_addr "./bzImage" = some 0 ∨
         env.tftp_file_size env.bootp_si_addr "./initrd" = some 0) :
    (acquire env kf ifn).2.filter isNetReadEvent = [] := by
  simp only [acquire]
  repeat' split
  all_goals (first
    | (simp [isNetReadEvent]; done)
    | (exfalso; rcases h with h | h <;> simp_all))

/-- Success shape of the local acquisition path. -/
lemma acquire_local_ok (env : BootEnv) (kf ifn kd id : List Nat)
    (h1 : env.image_fs_ok = true) (h2 : env.simple_fs = true)
    (h3 : env.fs_read kf = some kd) (h4 : env.fs_read ifn = some id) :
    acquire env kf ifn =
      (.ok (kd, id), [.fsOpen, .fsProbe, .fsOpen, .fsRead kf, .fsRead ifn]) := by
  simp [acquire, h1, h2, h3, h4]

/-- A zero reported file size on the network path panics at the size
assertion. -/
lemma acquire_zero_size_fatal (env : BootEnv) (kf ifn : List Nat) (ks is : Nat)
    (h1 : env.image_fs_ok = true) (h2 : env.simple_fs = false)
    (h3 : env.loaded_image_ok = true) (h4 : env.base_code_ok = true)
    (h5 : env.dhcp_ack_received = true)
    (hk : env.tftp_file_size env.bootp_si_addr "./bzImage" = some ks)
    (hi : env.tftp_file_size env.bootp_si_addr "./initrd" = some is)
    (hz : ks = 0 ∨ is = 0) :
    (acquire env kf ifn).1 =
      .error (if ks = 0 then "assertion failed: kfile_size > 0"
              else "assertion failed: ifile_size > 0") := by
  by_cases hks : ks = 0
  · simp [acquire, h1, h2, h3, h4, h5, hk, hi, hks]
  · have his : is = 0 := hz.resolve_left hks
    simp [acquire, h1, h2, h3, h4, h5, hk, hi, hks, his]

lemma check_hash_logs_phase (d h : List Nat) (n : String) (sb : Bool) :
    ∀ e ∈ (check_hash d h n sb).2, phase e = 3 := by
  by_cases hm : sha256 d = h <;> cases sb <;> simp [check_hash, hm, phase]

lemma mem_cmdline_seg {n : String} {lg : List Event} (h3 : ∀ e ∈ lg, phase e = 3) :
    ∀ e ∈ [Event.cmdlineBuild, Event.hashCheck n] ++ lg, 2 ≤ phase e ∧ phase e ≤ 3 := by
  intro e he
  rcases List.mem_append.mp he with h | h
  · fin_cases h <;> simp [phase]
  · rw [h3 e h]; omega

lemma mem_hash_seg {n : String} {lg : List Event} (h3 : ∀ e ∈ lg, phase e = 3) :
    ∀ e ∈ [Event.hashCheck n] ++ lg, phase e = 3 := by
  intro e he
  rcases List.mem_append.mp he with h | h
  · fin_cases h; rfl
  · exact h3 e h

/-- Every event of the post-acquisition tail is at the command-line stage
or later. -/
lemma afterAcquire_phase (env : BootEnv) (c : EmbeddedConfiguration) (kd id : List Nat) :
    ∀ e ∈ (afterAcquire env c kd id).2, 2 ≤ phase e := by
  have hk := check_hash_logs_phase kd c.kernel_hash "Kernel" env.secure_boot
  have hi := check_hash_logs_phase id c.initrd_hash "Initrd" env.secure_boot
  simp only [afterAcquire]
  split
  · exact fun e he => (mem_cmdline_seg hk e he).1
  · split
    · intro e he
      rcases List.mem_append.mp he with h | h
      · exact (mem_cmdline_seg hk e h).1
      · rw [mem_hash_seg hi e h]; omega
    · intro e he
      rcases List.mem_append.mp he with h | h
      · exact (mem_cmdline_seg hk e h).1
      · rcases List.mem_append.mp h with h' | h'
        · rw [mem_hash_seg hi e h']; omega
        · rcases List.mem_singleton.mp h' with rfl
          simp [phase]

lemma afterAcquire_no_net (env : BootEnv) (c : EmbeddedConfiguration) (kd id : List Nat) :
    netEvents (afterAcquire env c kd id).2 = [] := by
  rw [netEvents, List.filter_eq_nil_iff]
  intro e he hnet
  have h1 := afterAcquire_phase env c kd id e he
  have h2 := phase_of_net hnet
  omega

lemma afterAcquire_no_fsRead (env : BootEnv) (c : EmbeddedConfiguration) (kd id : List Nat) :
    fsReadEvents (afterAcquire env c kd id).2 = [] := by
  rw [fsReadEvents, List.filter_eq_nil_iff]
  intro e he hfs
  have h1 := afterAcquire_phase env c kd id e he
  have h2 := phase_of_fsRead hfs
  omega

lemma pairwise_phase_const {l : List Event} (k : Nat) (h : ∀ e ∈ l, phase e = k) :
    List.Pairwise (fun a b => phase a ≤ phase b) l := by
  induction l with
  | nil => exact List.Pairwise.nil
  | cons a l ih =>
      refine List.pairwise_cons.mpr ⟨fun b hb => ?_, ih fun e he => h e (List.mem_cons_of_mem a he)⟩
      rw [h a (List.mem_cons_self a l), h b (List.mem_cons_of_mem a hb)]

lemma pairwise_cmdline_seg {n : String} {lg : List Event} (h3 : ∀ e ∈ lg, phase e = 3) :
    List.Pairwise (fun a b => phase a ≤ phase b)
      ([Event.cmdlineBuild, Event.hashCheck n] ++ lg) := by
  refine List.pairwise_append.mpr ⟨?_, pairwise_phase_const 3 h3, ?_⟩
  · refine List.pairwise_cons.mpr ⟨fun b hb => ?_, List.pairwise_singleton _ _⟩
    rcases List.mem_singleton.mp hb with rfl
    simp [phase]
  · intro a ha b hb
    rw [h3 b hb]
    fin_cases ha <;> simp [phase]

lemma pairwise_hash_seg {n : String} {lg : List Event} (h3 : ∀ e ∈ lg, phase e = 3) :
    List.Pairwise (fun a b => phase a ≤ phase b) ([Event.hashCheck n] ++ lg) :=
  pairwise_phase_const 3 (mem_hash_seg h3)

/-- The post-acquisition tail is phase-ordered: command-line build, then
hash checks with their diagnostics, then hand-off. -/
lemma afterAcquire_pairwise (env : BootEnv) (c : EmbeddedConfiguration) (kd id : List Nat) :
    List.Pairwise (fun a b => phase a ≤ phase b) (afterAcquire env c kd id).2 := by
  have hk := check_hash_logs_phase kd c.kernel_hash "Kernel" env.secure_boot
  have hi := check_hash_logs_phase id c.initrd_hash "Initrd" env.secure_boot
  simp only [afterAcquire]
  split
  · exact pairwise_cmdline_seg hk
  · split
    · refine List.pairwise_append.mpr
        ⟨pairwise_cmdline_seg hk, pairwise_hash_seg hi, ?_⟩
      intro a ha b hb
      rw [mem_hash_seg hi b hb]
      exact (mem_cmdline_seg hk a ha).2
    · refine List.pairwise_append.mpr ⟨pairwise_cmdline_seg hk, ?_, ?_⟩
      · refine List.pairwise_append.mpr
          ⟨pairwise_hash_seg hi, List.pairwise_singleton _ _, ?_⟩
        intro a ha b hb
        rcases List.mem_singleton.mp hb with rfl
        rw [mem_hash_seg hi a ha]
        simp [phase]
      · intro a ha b hb
        have h2 := (mem_cmdline_seg hk a ha).2
        rcases List.mem_append.mp hb with h | h
        · rw [mem_hash_seg hi b h]; exact h2
        · rcases List.mem_singleton.mp h with rfl
          have h4 : phase Event.handOff = 4 := rfl
          omega

lemma afterAcquire_no_netRead (env : BootEnv) (c : EmbeddedConfiguration) (kd id : List Nat) :
    (afterAcquire env c kd id).2.filter isNetReadEvent = [] := by
  rw [List.filter_eq_nil_iff]
  intro e he hnr
  have h1 := afterAcquire_phase env c kd id e he
  have h2 := phase_of_net (isNetEvent_of_netRead hnr)
  omega

/-- Without a received DHCP acknowledgment the acquisition block issues no
network request. -/
lemma acquire_no_net_without_dhcp (env : BootEnv) (kf ifn : List Nat)
    (h : env.dhcp_ack_received = false) :
    netEvents (acquire env kf ifn).2 = [] := by
  simp only [acquire, netEvents]
  repeat' split
  all_goals (first | (simp [isNetEvent]; done) | simp_all)

/-- Without a received DHCP acknowledgment the network path panics at the
DHCP assertion. -/
lemma acquire_dhcp_fatal (env : BootEnv) (kf ifn : List Nat)
    (h1 : env.image_fs_ok = true) (h2 : env.simple_fs = false)
    (h3 : env.loaded_image_ok = true) (h4 : env.base_code_ok = true)
    (h5 : env.dhcp_ack_received = false) :
    acquire env kf ifn =
      (.error "assertion failed: base_code.mode().dhcp_ack_received",
       [.fsOpen, .fsProbe]) := by
  simp [acquire, h1, h2, h3, h4, h5]

/-- When configuration extraction succeeds, the network requests of a boot
attempt are exactly those of its acquisition block. -/
lemma boot_netEvents (env : BootEnv) (c : EmbeddedConfiguration)
    (h : EmbeddedConfiguration.new env.image = .ok c) :
    netEvents (boot_linux env).2 =
      netEvents (acquire env c.kernel_filename c.initrd_filename).2 := by
  simp only [boot_linux, h]
  cases hacq : acquire env c.kernel_filename c.initrd_filename with
  | mk res tr =>
    cases res with
    | error msg => simp [netEvents, isNetEvent]
    | ok kid =>
        obtain ⟨kd, id⟩ := kid
        have hta := afterAcquire_no_net env c kd id
        rw [netEvents] at hta
        simp [netEvents, List.filter_append, isNetEvent, hta]

/-- When configuration extraction succeeds, the filesystem reads of a boot
attempt are exactly those of its acquisition block. -/
lemma boot_fsReadEvents (env : BootEnv) (c : EmbeddedConfiguration)
    (h : EmbeddedConfiguration.new env.image = .ok c) :
    fsReadEvents (boot_linux env).2 =
      fsReadEvents (acquire env c.kernel_filename c.initrd_filename).2 := by
  simp only [boot_linux, h]
  cases hacq : acquire env c.kernel_filename c.initrd_filename with
  | mk res tr =>
    cases res with
    | error msg => simp [fsReadEvents, isFsReadEvent]
    | ok kid =>
        obtain ⟨kd, id⟩ := kid
        have hta := afterAcquire_no_fsRead env c kd id
        rw [fsReadEvents] at hta
        simp [fsReadEvents, List.filter_append, isFsReadEvent, hta]

/-- Every network request of a boot attempt goes to the DHCP boot server
address and names one of the two canonical filenames. -/
lemma boot_net_events_shape (env : BootEnv) :
    ∀ e ∈ netEvents (boot_linux env).2,
      e = .pxeSizeQuery env.bootp_si_addr "./bzImage" ∨
      e = .pxeSizeQuery env.bootp_si_addr "./initrd" ∨
      e = .pxeReadFile env.bootp_si_addr "./bzImage" ∨
      e = .pxeReadFile env.bootp_si_addr "./initrd" := by
  intro e he
  cases hnew : EmbeddedConfiguration.new env.image with
  | error err =>
      rw [netEvents] at he
      simp [boot_linux, hnew, isNetEvent] at he
  | ok c =>
      rw [boot_netEvents env c hnew, netEvents] at he
      obtain ⟨hmem, hnet⟩ := List.mem_filter.mp he
      exact acquire_net_events env c.kernel_filename c.initrd_filename e hmem hnet

/-! ## Claims about `check_hash` and the configuration reader -/

/-- C1: for every byte buffer, 32-byte expected hash, artifact name and
Secure-Boot flag, `check_hash` succeeds silently on a hash match; on a
mismatch it logs an error naming the artifact and returns
`SECURITY_VIOLATION` when Secure Boot is enabled, and logs a warning and
returns `Ok` when it is not. -/
theorem check_hash_policy (data h : List Nat) (name : String) (sb : Bool)
    (hlen : h.length = 32) :
    (sha256 data = h → check_hash data h name sb = (.ok (), [])) ∧
    (sha256 data ≠ h → sb = true →
      check_hash data h name sb =
        (.error .SECURITY_VIOLATION, [.logError (name ++ " hash does not match!")])) ∧
    (sha256 data ≠ h → sb = false →
      check_hash data h name sb =
        (.ok (), [.logWarn (name ++ " hash does not match! Continuing anyway.")])) := by
  refine ⟨fun hm => ?_, fun hm hsb => ?_, fun hm hsb => ?_⟩
  · simp [check_hash, hm]
  · subst hsb; simp [check_hash, hm]
  · subst hsb; simp [check_hash, hm]

/-- Witness for C1 at concrete inputs: the empty buffer with its own hash,
and with an all-zero expected hash under both Secure-Boot states. -/
theorem check_hash_policy_witness :
    check_hash [] (sha256 []) "Kernel" true = (.ok (), []) ∧
    check_hash [] (List.replicate 32 0) "Kernel" true =
      (.error .SECURITY_VIOLATION, [.logError "Kernel hash does not match!"]) ∧
    check_hash [] (List.replicate 32 0) "Initrd" false =
      (.ok (), [.logWarn "Initrd hash does not match! Continuing anyway."]) :=
  ⟨(check_hash_policy [] (sha256 []) "Kernel" true (by decide)).1 rfl,
   (check_hash_policy [] (List.replicate 32 0) "Kernel" true (by decide)).2.1 (by decide) rfl,
   (check_hash_policy [] (List.replicate 32 0) "Initrd" false (by decide)).2.2 (by decide) rfl⟩

/-- C10: the success/failure result of `check_hash` does not depend on the
artifact name; only the logged text does. -/
theorem check_hash_name_independent (data h : List Nat) (sb : Bool) (n1 n2 : String) :
    (check_hash data h n1 sb).1 = (check_hash data h n2 sb).1 := by
  by_cases hm : sha256 data = h <;> cases sb <;> simp [check_hash, hm]

/-- C9: `extract_hash` succeeds exactly when the named section exists with
exactly 32 bytes, returning those bytes verbatim; a missing section and a
wrong-length section both return the same `INVALID_PARAMETER` error. -/
theorem extract_hash_spec (img : Image) (sec : String) :
    (∀ b, pe_section img sec = some b → b.length = 32 → extract_hash img sec = .ok b) ∧
    ((∃ b, extract_hash img sec = .ok b) ↔
      ∃ b, pe_section img sec = some b ∧ b.length = 32) ∧
    (pe_section img sec = none → extract_hash img sec = .error .INVALID_PARAMETER) ∧
    (∀ b, pe_section img sec = some b → b.length ≠ 32 →
      extract_hash img sec = .error .INVALID_PARAMETER) := by
  refine ⟨fun b hp hl => ?_, ⟨fun ⟨b, hb⟩ => ?_, fun ⟨b, hp, hl⟩ => ?_⟩,
    fun hp => ?_, fun b hp hl => ?_⟩
  · simp [extract_hash, hp, hl]
  · obtain ⟨hp, hl⟩ := extract_hash_ok hb
    exact ⟨b, hp, hl⟩
  · exact ⟨b, by simp [extract_hash, hp, hl]⟩
  · simp [extract_hash, hp]
  · simp [extract_hash, hp, hl]

/-- Witness for C9 at concrete inputs: the well-formed image's kernel-hash
section, a missing section, and a wrong-length section. -/
theorem extract_hash_spec_witness :
    extract_hash goodImage ".kernelh" = .ok (sha256 [1, 2, 3]) ∧
    extract_hash goodImage ".absent" = .error .INVALID_PARAMETER ∧
    extract_hash goodImage ".kernelp" = .error .INVALID_PARAMETER :=
  ⟨(extract_hash_spec goodImage ".kernelh").1 (sha256 [1, 2, 3]) (by decide) (by decide),
   (extract_hash_spec goodImage ".absent").2.2.1 (by decide),
   (extract_hash_spec goodImage ".kernelp").2.2.2 [107, 0, 0, 0] (by decide) (by decide)⟩

/-- C4: if any of the five named sections is absent, or a hash section's
length is not exactly 32 bytes, `EmbeddedConfiguration::new` fails; and
when it fails, `boot_linux` aborts fatally with a trace consisting of the
configuration-extraction step only — in particular no filesystem read and
no network request is attempted. -/
theorem config_failure_aborts_before_io (env : BootEnv) :
    (∀ s, s ∈ ([".kernelp", ".kernelh", ".initrdp", ".initrdh", ".cmdline"] : List String) →
      pe_section env.image s = none →
      ∃ e, EmbeddedConfiguration.new env.image = .error e) ∧
    (∀ s b, (s = ".kernelh" ∨ s = ".initrdh") → pe_section env.image s = some b →
      b.length ≠ 32 → ∃ e, EmbeddedConfiguration.new env.image = .error e) ∧
    (∀ e, EmbeddedConfiguration.new env.image = .error e →
      boot_linux env =
        (.fatal "Failed to extract configuration from binary. Did you run lzbt?",
         [.configExtract]) ∧
      (boot_linux env).2.filter isAcqEvent = []) := by
  have notOk : (∀ c, EmbeddedConfiguration.new env.image ≠ .ok c) →
      ∃ e, EmbeddedConfiguration.new env.image = .error e := by
    intro hno
    cases hn : EmbeddedConfiguration.new env.image with
    | error e => exact ⟨e, rfl⟩
    | ok c => exact absurd hn (hno c)
  refine ⟨fun s hs hnone => ?_, fun s b hsec hp hl => ?_, fun e he => ?_⟩
  · refine notOk fun c hok => ?_
    obtain ⟨⟨b1, hb1⟩, ⟨hb2, _⟩, ⟨b3, hb3⟩, ⟨hb4, _⟩, ⟨b5, hb5⟩⟩ := new_ok_sections hok
    simp only [List.mem_cons, List.mem_singleton] at hs
    rcases hs with rfl | rfl | rfl | rfl | rfl | h
    · rw [hnone] at hb1; exact absurd hb1 (by simp)
    · rw [hnone] at hb2; exact absurd hb2 (by simp)
    · rw [hnone] at hb3; exact absurd hb3 (by simp)
    · rw [hnone] at hb4; exact absurd hb4 (by simp)
    · rw [hnone] at hb5; exact absurd hb5 (by simp)
    · exact absurd h (List.not_mem_nil s)
  · refine notOk fun c hok => ?_
    obtain ⟨_, ⟨hb2, hl2⟩, _, ⟨hb4, hl4⟩, _⟩ := new_ok_sections hok
    rcases hsec with rfl | rfl
    · rw [hp] at hb2; cases hb2; exact hl hl2
    · rw [hp] at hb4; cases hb4; exact hl hl4
  · constructor
    · simp [boot_linux, he]
    · simp [boot_linux, he, isAcqEvent, isFsReadEvent, isNetEvent]

/-- Witness for C4 at a concrete input: an image missing its `.kernelh`
section makes `EmbeddedConfiguration::new` fail and the boot attempt abort
with no acquisition I/O. -/
theorem config_failure_aborts_before_io_witness :
    (∃ e, EmbeddedConfiguration.new
      [(".kernelp", [107, 0, 0, 0])] = .error e) ∧
    boot_linux { envLocal with image := [(".kernelp", [107, 0, 0, 0])] } =
      (.fatal "Failed to extract configuration from binary. Did you run lzbt?",
       [.configExtract]) := by
  have h1 := (config_failure_aborts_before_io
    { envLocal with image := [(".kernelp", [107, 0, 0, 0])] }).1 ".kernelh"
    (by decide) (by decide)
  refine ⟨h1, ?_⟩
  obtain ⟨e, he⟩ := h1
  exact ((config_failure_aborts_before_io
    { envLocal with image := [(".kernelp", [107, 0, 0, 0])] }).2.2 e he).1

/-! ## Claims about `boot_linux` -/

/-- C2: the claim (and the spec's probe-then-select rule) says a boot
attempt on a device without the block-filesystem capability performs the
PXE/TFTP acquisition.  The code does not: `boot_linux` unconditionally
requires `get_image_file_system(handle)` to succeed (`thin.rs` lines
102-105, a fatal `expect`) *before* the `test_protocol` probe at line 108,
and that call fails exactly when the capability is absent.  Evaluated at a
capability-absent but otherwise fully healthy PXE environment with a valid
embedded configuration, the boot attempt panics with "Failed to get file
system handle" and performs neither a network request nor a filesystem
read — the network branch (lines 120-158) is unreachable. -/
theorem capability_absent_boot_panics :
    (boot_linux envPxeNoFs).1 = .fatal "Failed to get file system handle" ∧
    netEvents (boot_linux envPxeNoFs).2 = [] ∧
    fsReadEvents (boot_linux envPxeNoFs).2 = [] := by decide

/-- C3 (amended): the boot attempt's steps are phase-ordered —
configuration extraction, then acquisition, then command-line build, then
hash verification, then hand-off.  In particular the kernel command line
is assembled before the hashes are verified, not after. -/
theorem pipeline_phase_order (env : BootEnv) :
    List.Pairwise (fun a b => phase a ≤ phase b) (boot_linux env).2 := by
  cases hnew : EmbeddedConfiguration.new env.image with
  | error e => simp [boot_linux, hnew]
  | ok c =>
      simp only [boot_linux, hnew]
      cases hacq : acquire env c.kernel_filename c.initrd_filename with
      | mk res tr =>
          have hph := acquire_phase env c.kernel_filename c.initrd_filename
          rw [hacq] at hph
          have hcons : List.Pairwise (fun a b => phase a ≤ phase b)
              (Event.configExtract :: tr) := by
            refine List.pairwise_cons.mpr ⟨fun b hb => ?_, pairwise_phase_const 1 hph⟩
            rw [hph b hb]
            simp [phase]
          cases res with
          | error msg => exact hcons
          | ok kid =>
              obtain ⟨kd, id⟩ := kid
              refine List.pairwise_append.mpr
                ⟨hcons, afterAcquire_pairwise env c kd id, ?_⟩
              intro a ha b hb
              have hb2 := afterAcquire_phase env c kd id b hb
              rcases List.mem_cons.mp ha with rfl | ha
              · have h0 : phase Event.configExtract = 0 := rfl
                omega
              · rw [hph a ha]; omega

/-- Counterexample to C3 as stated: in a concrete successful boot attempt
the command-line build event strictly precedes the kernel hash check
event, so hash verification does not happen before command-line assembly. -/
theorem cmdline_built_before_hash_check :
    Event.cmdlineBuild ∈ (boot_linux envLocal).2 ∧
    Event.hashCheck "Kernel" ∈ (boot_linux envLocal).2 ∧
    (boot_linux envLocal).2.indexOf Event.cmdlineBuild <
      (boot_linux envLocal).2.indexOf (Event.hashCheck "Kernel") := by decide

/-- C5: every network request of a boot attempt names one of the two fixed
canonical filenames at the DHCP-provided server, and the embedded filename
sections have no influence on the network requests issued. -/
theorem network_requests_use_canonical_names (env : BootEnv) :
    (∀ e ∈ netEvents (boot_linux env).2,
      e = .pxeSizeQuery env.bootp_si_addr "./bzImage" ∨
      e = .pxeSizeQuery env.bootp_si_addr "./initrd" ∨
      e = .pxeReadFile env.bootp_si_addr "./bzImage" ∨
      e = .pxeReadFile env.bootp_si_addr "./initrd") ∧
    (∀ img2 c c2, EmbeddedConfiguration.new env.image = .ok c →
      EmbeddedConfiguration.new img2 = .ok c2 →
      netEvents (boot_linux { env with image := img2 }).2 =
        netEvents (boot_linux env).2) := by
  refine ⟨boot_net_events_shape env, fun img2 c c2 hc hc2 => ?_⟩
  rw [boot_netEvents { env with image := img2 } c2 hc2, boot_netEvents env c hc,
    acquire_image_irrelevant env img2 c2.kernel_filename c2.initrd_filename]
  cases hfs : env.simple_fs with
  | true =>
      rw [acquire_local_no_net env _ _ hfs, acquire_local_no_net env _ _ hfs]
  | false =>
      rw [acquire_ignores_names env c2.kernel_filename c2.initrd_filename
        c.kernel_filename c.initrd_filename hfs]

/-- Witness for C5: the first network request of the PXE environment is a
size query for `./bzImage` at the DHCP server, and replacing the embedded
filenames leaves the network requests unchanged. -/
theorem network_requests_use_canonical_names_witness :
    ((Event.pxeSizeQuery 7 "./bzImage") = .pxeSizeQuery envNet.bootp_si_addr "./bzImage" ∨
     (Event.pxeSizeQuery 7 "./bzImage") = .pxeSizeQuery envNet.bootp_si_addr "./initrd" ∨
     (Event.pxeSizeQuery 7 "./bzImage") = .pxeReadFile envNet.bootp_si_addr "./bzImage" ∨
     (Event.pxeSizeQuery 7 "./bzImage") = .pxeReadFile envNet.bootp_si_addr "./initrd") ∧
    netEvents (boot_linux { envNet with image := altImage }).2 =
      netEvents (boot_linux envNet).2 :=
  ⟨(network_requests_use_canonical_names envNet).1 (.pxeSizeQuery 7 "./bzImage") (by decide),
   (network_requests_use_canonical_names envNet).2 altImage
     ⟨[107], sha256 [1, 2, 3], [105], sha256 [4, 5], [99]⟩
     ⟨[106], sha256 [1, 2, 3], [104], sha256 [4, 5], [99]⟩
     rfl rfl⟩

/-- C6: a boot-server size query answering 0 for either canonical filename
means no TFTP transfer happens at all, and on an otherwise healthy network
path the boot attempt panics at the size assertion. -/
theorem zero_file_size_aborts (env : BootEnv) :
    (env.tftp_file_size env.bootp_si_addr "./bzImage" = some 0 ∨
       env.tftp_file_size env.bootp_si_addr "./initrd" = some 0 →
     (boot_linux env).2.filter isNetReadEvent = []) ∧
    (∀ c ks is, EmbeddedConfiguration.new env.image = .ok c →
      env.image_fs_ok = true → env.simple_fs = false →
      env.loaded_image_ok = true → env.base_code_ok = true →
      env.dhcp_ack_received = true →
      env.tftp_file_size env.bootp_si_addr "./bzImage" = some ks →
      env.tftp_file_size env.bootp_si_addr "./initrd" = some is →
      ks = 0 ∨ is = 0 →
      (boot_linux env).1 =
        .fatal (if ks = 0 then "assertion failed: kfile_size > 0"
                else "assertion failed: ifile_size > 0")) := by
  constructor
  · intro hz
    cases hnew : EmbeddedConfiguration.new env.image with
    | error e => simp [boot_linux, hnew, isNetReadEvent]
    | ok c =>
        simp only [boot_linux, hnew]
        have hq := acquire_no_transfer_on_zero env c.kernel_filename c.initrd_filename hz
        cases hacq : acquire env c.kernel_filename c.initrd_filename with
        | mk res tr =>
            rw [hacq] at hq
            cases res with
            | error msg => simp [isNetReadEvent, hq]
            | ok kid =>
                obtain ⟨kd, id⟩ := kid
                simp [List.filter_append, isNetReadEvent, hq,
                  afterAcquire_no_netRead env c kd id]
  · intro c ks is hc h1 h2 h3 h4 h5 hk hi hz
    simp only [boot_linux, hc]
    have hfatal := acquire_zero_size_fatal env c.kernel_filename c.initrd_filename
      ks is h1 h2 h3 h4 h5 hk hi hz
    cases hacq : acquire env c.kernel_filename c.initrd_filename with
    | mk res tr =>
        rw [hacq] at hfatal
        cases res with
        | error msg => simp at hfatal; rw [hfatal]
        | ok kid => simp at hfatal

/-- Witness for C6: with the boot server reporting size 0 for the kernel,
the PXE environment performs no transfer and panics at the size assertion. -/
theorem zero_file_size_aborts_witness :
    (boot_linux envNetZero).2.filter isNetReadEvent = [] ∧
    (boot_linux envNetZero).1 = .fatal "assertion failed: kfile_size > 0" := by
  constructor
  · exact (zero_file_size_aborts envNetZero).1 (Or.inl rfl)
  · have h := (zero_file_size_aborts envNetZero).2
      ⟨[107], sha256 [1, 2, 3], [105], sha256 [4, 5], [99]⟩ 0 2
      rfl rfl rfl rfl rfl rfl rfl rfl (Or.inl rfl)
    simpa using h

/-- C7: without a received DHCP acknowledgment a boot attempt issues no
network request at all and the network path panics at the DHCP assertion;
when requests are issued, they all go to the address extracted from the
DHCP acknowledgment's bootp server field. -/
theorem dhcp_ack_gates_network (env : BootEnv) :
    (env.dhcp_ack_received = false → netEvents (boot_linux env).2 = []) ∧
    (∀ c, EmbeddedConfiguration.new env.image = .ok c →
      env.image_fs_ok = true → env.simple_fs = false →
      env.loaded_image_ok = true → env.base_code_ok = true →
      env.dhcp_ack_received = false →
      (boot_linux env).1 =
        .fatal "assertion failed: base_code.mode().dhcp_ack_received") ∧
    (∀ e ∈ netEvents (boot_linux env).2,
      e = .pxeSizeQuery env.bootp_si_addr "./bzImage" ∨
      e = .pxeSizeQuery env.bootp_si_addr "./initrd" ∨
      e = .pxeReadFile env.bootp_si_addr "./bzImage" ∨
      e = .pxeReadFile env.bootp_si_addr "./initrd") := by
  refine ⟨fun h => ?_, fun c hc h1 h2 h3 h4 h5 => ?_, boot_net_events_shape env⟩
  · cases hnew : EmbeddedConfiguration.new env.image with
    | error e => simp [boot_linux, hnew, netEvents, isNetEvent]
    | ok c =>
        rw [boot_netEvents env c hnew]
        exact acquire_no_net_without_dhcp env _ _ h
  · simp only [boot_linux, hc]
    have hfatal := acquire_dhcp_fatal env c.kernel_filename c.initrd_filename
      h1 h2 h3 h4 h5
    rw [hfatal]

/-- Witness for C7: with no DHCP acknowledgment the PXE environment issues
no network request and panics at the DHCP assertion. -/
theorem dhcp_ack_gates_network_witness :
    netEvents (boot_linux envNoDhcp).2 = [] ∧
    (boot_linux envNoDhcp).1 =
      .fatal "assertion failed: base_code.mode().dhcp_ack_received" :=
  ⟨(dhcp_ack_gates_network envNoDhcp).1 rfl,
   (dhcp_ack_gates_network envNoDhcp).2.1
     ⟨[107], sha256 [1, 2, 3], [105], sha256 [4, 5], [99]⟩
     rfl rfl rfl rfl rfl rfl⟩

/-- C8: once both hash checks pass on the acquired buffers, `boot_linux`
unconditionally hands off through `boot_linux_unchecked`, passing exactly
the two acquired buffers and the assembled command line. -/
theorem verified_handoff (env : BootEnv) (config : EmbeddedConfiguration)
    (kd id : List Nat)
    (hc : EmbeddedConfiguration.new env.image = .ok config)
    (hacq : (acquire env config.kernel_filename config.initrd_filename).1 = .ok (kd, id))
    (hk : (check_hash kd config.kernel_hash "Kernel" env.secure_boot).1 = .ok ())
    (hi : (check_hash id config.initrd_hash "Initrd" env.secure_boot).1 = .ok ()) :
    (boot_linux env).1 =
      .booted kd (env.get_cmdline config.cmdline env.secure_boot) id ∧
    Event.handOff ∈ (boot_linux env).2 := by
  simp only [boot_linux, hc]
  cases hacq2 : acquire env config.kernel_filename config.initrd_filename with
  | mk res tr =>
      rw [hacq2] at hacq
      cases res with
      | error msg => simp at hacq
      | ok kid =>
          obtain ⟨kd', id'⟩ := kid
          simp only [Except.ok.injEq, Prod.mk.injEq] at hacq
          obtain ⟨rfl, rfl⟩ := hacq
          simp only [afterAcquire, hk, hi]
          refine ⟨trivial, ?_⟩
          simp

/-- Witness for C8: the filesystem-backed environment passes both checks
and hands off with the two read buffers and the embedded command line. -/
theorem verified_handoff_witness :
    (boot_linux envLocal).1 = .booted [1, 2, 3] [99] [4, 5] ∧
    Event.handOff ∈ (boot_linux envLocal).2 :=
  verified_handoff envLocal ⟨[107], sha256 [1, 2, 3], [105], sha256 [4, 5], [99]⟩
    [1, 2, 3] [4, 5] rfl rfl rfl rfl

end Lanzaboote
